import Mathlib

/-!
Shallow embedding of `src/openmm_ramd/analyze/analyze_log.py`.

The module orchestrates: parsing RAMD log files (external `parser` module),
condensing trajectories to 1D (cv, xi) frames (external), building a milestone
grid (external `milestoning` module), binning trajectory fragments by the xi
value of their first frame (lines 59-74, in this file), building per-bin
milestoning models and time profiles (external), and a sigma-RAMD functional
expansion (external `sigma_ramd` module).

Python floats are modelled as rationals; the external collaborators
(`parser`, `milestoning`, `sigma_ramd`) are parameters of the embedding,
since only their call sites live in `analyze_log.py`.
-/

namespace OpenmmRamd

/-- One sampled frame of a condensed one-dimensional trajectory:
a collective-variable value `cv` and a force-projection value `xi`.
In the Python source a frame is the pair `(cv, xi)`. -/
structure Frame where
  cv : ℚ
  xi : ℚ
deriving DecidableEq, Repr

/-- A trajectory fragment: the ordered list of frames recorded between two
successive force-direction resamplings. -/
abbrev Trajectory := List Frame

/-- The three metadata values returned by `parser.parse_ramd_log_file`
alongside the trajectories: `forceOutFreq` (integer), `forceRAMD` (float),
`timeStep` (float). -/
structure RunMetadata where
  forceOutFreq : ℤ
  forceRAMD : ℚ
  timeStep : ℚ
deriving DecidableEq, Repr

/-- The full return value of `parser.parse_ramd_log_file` for one log file. -/
structure LogData where
  trajectories : List Trajectory
  forceOutFreq : ℤ
  forceRAMD : ℚ
  timeStep : ℚ
deriving DecidableEq, Repr

/-- The errors `analyze_log` can raise: the three `assert` messages of
lines 38-40, the `Exception` of line 74 (which carries the offending xi
value), the `IndexError` a Python `trajectory[0]` raises on an empty
fragment, the `NameError` line 53 raises when the file list was empty
(the loop variable `trajectories` is then unbound), and the usage error
`argparse` raises when no log file path is given (`nargs` is plus). -/
inductive AnalysisError where
  | differingForceOutFreq
  | differingForceRAMD
  | differingTimeStep
  | xiNotPlacedInBin (xi : ℚ)
  | indexError
  | nameErrorTrajectories
  | usageError
deriving DecidableEq, Repr

/-- Line 25: `xi_bins_ranges = np.linspace(-1.0, 1.0, num_xi_bins+1)`.
`np.linspace(-1, 1, n+1)` has entries `-1 + 2*j/n` for `j = 0..n`
(for `n = 0` it is the one-element array `[-1.0]`, which the formula also
gives since division by zero is zero in `ℚ`). -/
def xi_bins_ranges (num_xi_bins : ℕ) : List ℚ :=
  (List.range (num_xi_bins + 1)).map
    (fun (j : ℕ) => -1 + 2 * (j : ℚ) / (num_xi_bins : ℚ))

/-- The inner loop of lines 66-71: scan `j = start, start+1, ...` while fuel
remains, returning the first `j` with
`xi_bins_ranges[j] <= traj_xi <= xi_bins_ranges[j+1]`, or `none` when the
scan is exhausted (`found_bin` stays false). -/
def find_bin_from (ranges : List ℚ) (traj_xi : ℚ) : ℕ → ℕ → Option ℕ
  | _, 0 => none
  | j, fuel + 1 =>
    if ranges.getD j 0 ≤ traj_xi ∧ traj_xi ≤ ranges.getD (j + 1) 0 then some j
    else find_bin_from ranges traj_xi (j + 1) fuel

/-- The bin index assigned to a first-frame xi value: the first
`j ∈ range num_xi_bins` whose closed interval contains it (lines 66-71). -/
def find_bin (num_xi_bins : ℕ) (ranges : List ℚ) (traj_xi : ℚ) : Option ℕ :=
  find_bin_from ranges traj_xi 0 num_xi_bins

/-- One iteration of the loop over trajectories (lines 63-74): read the first
frame's xi value (`trajectory[0][1]`; `IndexError` on an empty fragment),
find its bin and append the trajectory to that bin, or raise the
line-74 `Exception` when no bin matched. -/
def xi_binning_step (num_xi_bins : ℕ) (ranges : List ℚ)
    (bins : List (List Trajectory)) (trajectory : Trajectory) :
    Except AnalysisError (List (List Trajectory)) :=
  match trajectory.head? with
  | none => .error .indexError
  | some frame =>
    match find_bin num_xi_bins ranges frame.xi with
    | some j => .ok (bins.set j (bins.getD j [] ++ [trajectory]))
    | none => .error (.xiNotPlacedInBin frame.xi)

/-- Lines 59-74: start from `num_xi_bins` empty bins and place every
trajectory, failing on the first one that fits no bin. -/
def xi_binning (num_xi_bins : ℕ) (ranges : List ℚ) (trajs : List Trajectory) :
    Except AnalysisError (List (List Trajectory)) :=
  trajs.foldlM (xi_binning_step num_xi_bins ranges) (List.replicate num_xi_bins [])

/-- The state of the loop over log files (lines 26-42): the accumulated
`trajectory_list`, the metadata captured from the first file (`none` before
the first iteration), and the value of the loop-local variable
`trajectories` after the last iteration (`none` when the loop never ran). -/
structure LoadState where
  trajectory_list : List Trajectory
  metadata : Option RunMetadata
  trajectories : Option (List Trajectory)
deriving DecidableEq, Repr

/-- One iteration of the loop over log files: capture the metadata on the
first file, otherwise `assert` (lines 38-40) that this file's metadata
matches the first file's; then extend `trajectory_list` (line 42). -/
def load_log_step (s : LoadState) (log : LogData) : Except AnalysisError LoadState :=
  match s.metadata with
  | none =>
    .ok ⟨s.trajectory_list ++ log.trajectories,
         some ⟨log.forceOutFreq, log.forceRAMD, log.timeStep⟩,
         some log.trajectories⟩
  | some md =>
    if md.forceOutFreq ≠ log.forceOutFreq then .error .differingForceOutFreq
    else if md.forceRAMD ≠ log.forceRAMD then .error .differingForceRAMD
    else if md.timeStep ≠ log.timeStep then .error .differingTimeStep
    else .ok ⟨s.trajectory_list ++ log.trajectories, some md, some log.trajectories⟩

/-- Lines 26-42: fold `load_log_step` over the parsed log files, starting
from the empty trajectory list with no metadata. -/
def load_logs (logs : List LogData) : Except AnalysisError LoadState :=
  logs.foldlM load_log_step ⟨[], none, none⟩

/-- The model of `milestoning.make_milestoning_model`'s return value
(count matrix, time vector, rate matrix, transition matrix); the matrix and
vector types are opaque parameters since `milestoning` is external. -/
structure MilestoningModel (Mat Vec : Type) where
  count_matrix : Mat
  time_vector : Vec
  rate_matrix : Mat
  transition_matrix : Mat

/-- The external collaborators of `analyze_log.py`: the `parser`,
`milestoning` and `sigma_ramd` modules, specified only at their call sites.
`functional_expansion_1d_ramd` takes the stacked per-bin time profiles, the
force constant, beta, and the CV range/start, and covers the construction of
the `calc` object together with its `make_second_order_time_estimate` call. -/
structure Externals (Mat Vec Profile Est : Type) where
  parse_ramd_log_file : String → LogData
  condense_trajectories : List Trajectory → List Trajectory
  uniform_milestone_locations : List Trajectory → ℕ → List ℚ × ℚ × ℚ × ℚ
  make_milestoning_model : List Trajectory → List ℚ → ℚ → ℕ → MilestoningModel Mat Vec
  make_time_profiles : Mat → Vec → ℕ → Profile
  functional_expansion_1d_ramd : List Profile → ℚ → ℚ → ℚ → ℚ → ℚ → Est

/-- Everything `analyze_log` computes, recorded so the data flow of the
orchestration can be stated: the merged trajectory list, the metadata, the
condensed trajectories actually handed to the grid builder and binner, the
milestone grid, the xi bins, the `frame_time` of line 76, the `beta` of
line 91, the per-bin time profiles, and the final time estimate. -/
structure AnalysisResult (Profile Est : Type) where
  trajectory_list : List Trajectory
  metadata : RunMetadata
  one_dim_trajs : List Trajectory
  milestones : List ℚ
  min_location : ℚ
  max_location : ℚ
  starting_cv_val : ℚ
  xi_bins : List (List Trajectory)
  frame_time : ℚ
  beta : ℚ
  xi_bin_time_profiles : List Profile
  time_estimate : Est

/-- The body of `analyze_log` (lines 20-97), with the externals as
parameters. Note line 53 condenses `trajectories` — the loop variable
holding the LAST file's fragments — not the accumulated `trajectory_list`. -/
def analyze_log {Mat Vec Profile Est : Type} (ext : Externals Mat Vec Profile Est)
    (ramd_log_file_list : List String) (num_milestones : ℕ := 10)
    (num_xi_bins : ℕ := 5) : Except AnalysisError (AnalysisResult Profile Est) :=
  let ranges := xi_bins_ranges num_xi_bins
  match load_logs (ramd_log_file_list.map ext.parse_ramd_log_file) with
  | .error e => .error e
  | .ok s =>
    match s.metadata, s.trajectories with
    | some md, some trajectories =>
      let one_dim_trajs := ext.condense_trajectories trajectories
      match ext.uniform_milestone_locations one_dim_trajs num_milestones with
      | (milestones, min_location, max_location, starting_cv_val) =>
        match xi_binning num_xi_bins ranges one_dim_trajs with
        | .error e => .error e
        | .ok xi_bins =>
          let frame_time := md.timeStep * (md.forceOutFreq : ℚ)
          let xi_bin_time_profiles := xi_bins.map (fun xi_bin_trajs =>
            let model := ext.make_milestoning_model xi_bin_trajs milestones
              frame_time num_milestones
            ext.make_time_profiles model.transition_matrix model.time_vector
              num_milestones)
          let beta : ℚ := 0
          let time_estimate := ext.functional_expansion_1d_ramd
            xi_bin_time_profiles md.forceRAMD beta min_location max_location
            starting_cv_val
          .ok ⟨s.trajectory_list, md, one_dim_trajs, milestones, min_location,
               max_location, starting_cv_val, xi_bins, frame_time, beta,
               xi_bin_time_profiles, time_estimate⟩
    | _, _ => .error .nameErrorTrajectories

/-- The command-line arguments (lines 100-116): one or more log file paths
(`nargs` is plus), and the two optional integer options, `none` when
omitted. -/
structure CliArgs where
  ramdLogFiles : List String
  numMilestones : Option ℕ
  numAngleBins : Option ℕ

/-- The `__main__` block (lines 99-118): `argparse` rejects an empty
positional list; the option defaults are 10 milestones and 5 angle bins
(lines 105 and 109); then `analyze_log` is called on the resolved values. -/
def run_main {Mat Vec Profile Est : Type} (ext : Externals Mat Vec Profile Est)
    (args : CliArgs) : Except AnalysisError (AnalysisResult Profile Est) :=
  if args.ramdLogFiles.isEmpty then .error .usageError
  else analyze_log ext args.ramdLogFiles (args.numMilestones.getD 10)
    (args.numAngleBins.getD 5)

/-- A trivial instantiation of the external modules used to evaluate the
orchestration on concrete inputs: condensing is the identity and the
milestoning and sigma-RAMD stages return placeholder values. -/
def testExternals (parse : String → LogData) : Externals Unit Unit Unit Unit where
  parse_ramd_log_file := parse
  condense_trajectories := id
  uniform_milestone_locations := fun _ _ => ([], 0, 0, 0)
  make_milestoning_model := fun _ _ _ _ => ⟨(), (), (), ()⟩
  make_time_profiles := fun _ _ _ => ()
  functional_expansion_1d_ramd := fun _ _ _ _ _ _ => ()

/-- Two log files with identical metadata
(forceOutFreq 50, forceRAMD 14, timeStep 2), one fragment each. -/
def twoFileParse : String → LogData := fun name =>
  if name = "b" then ⟨[[⟨1, 0⟩]], 50, 14, 2⟩ else ⟨[[⟨0, 0⟩]], 50, 14, 2⟩

/-- Two log files whose forceRAMD values differ (14 versus 15). -/
def mismatchParse : String → LogData := fun name =>
  if name = "b" then ⟨[[⟨1, 0⟩]], 50, 15, 2⟩ else ⟨[[⟨0, 0⟩]], 50, 14, 2⟩

/-- The analysis result of running `analyze_log` on `twoFileParse` with the
trivial externals and the default parameters: the fragment of the second
file (xi 0) lands in bin 2 of 5, and only that file's fragment is condensed
even though `trajectory_list` merged both files. -/
def resultTwoFiles : AnalysisResult Unit Unit :=
  ⟨[[⟨0, 0⟩], [⟨1, 0⟩]], ⟨50, 14, 2⟩, [[⟨1, 0⟩]], [], 0, 0, 0,
   [[], [], [[⟨1, 0⟩]], [], []], 100, 0, [(), (), (), (), ()], ()⟩

/-! ### Properties of the xi bin ranges (line 25) -/

lemma xi_bins_ranges_length (n : ℕ) : (xi_bins_ranges n).length = n + 1 := by
  simp [xi_bins_ranges]

lemma xi_bins_ranges_getD (n j : ℕ) (h : j < n + 1) :
    (xi_bins_ranges n).getD j 0 = -1 + 2 * (j : ℚ) / (n : ℚ) := by
  rw [xi_bins_ranges, List.getD_eq_getElem?_getD, List.getElem?_map,
    List.getElem?_range h]
  rfl

lemma xi_bins_ranges_getD_ge (n j : ℕ) (h : j < n + 1) :
    -1 ≤ (xi_bins_ranges n).getD j 0 := by
  rw [xi_bins_ranges_getD n j h]
  have h2 : 0 ≤ 2 * (j : ℚ) / (n : ℚ) := by positivity
  linarith

lemma xi_bins_ranges_getD_le (n j : ℕ) (h : j ≤ n) :
    (xi_bins_ranges n).getD j 0 ≤ 1 := by
  rw [xi_bins_ranges_getD n j (by omega)]
  rcases Nat.eq_zero_or_pos n with hn | hn
  · subst hn
    interval_cases j
    norm_num
  · have hn' : (0 : ℚ) < (n : ℚ) := by exact_mod_cast hn
    have hj : (j : ℚ) ≤ (n : ℚ) := by exact_mod_cast h
    have hdiv : 2 * (j : ℚ) / (n : ℚ) ≤ 2 := by
      rw [div_le_iff₀ hn']
      nlinarith
    linarith

/-! ### Properties of the linear bin scan (lines 65-71) -/

lemma find_bin_from_some {ranges : List ℚ} {x : ℚ} {j fuel k : ℕ}
    (h : find_bin_from ranges x j fuel = some k) :
    j ≤ k ∧ k < j + fuel ∧
    (ranges.getD k 0 ≤ x ∧ x ≤ ranges.getD (k + 1) 0) ∧
    (∀ m, j ≤ m → m < k → ¬(ranges.getD m 0 ≤ x ∧ x ≤ ranges.getD (m + 1) 0)) := by
  induction fuel generalizing j with
  | zero => simp [find_bin_from] at h
  | succ fuel ih =>
    rw [find_bin_from] at h
    split at h
    · rename_i htest
      cases h
      exact ⟨le_refl _, by omega, htest, fun m h1 h2 => by omega⟩
    · rename_i htest
      obtain ⟨h1, h2, h3, h4⟩ := ih h
      refine ⟨by omega, by omega, h3, fun m hm1 hm2 hmt => ?_⟩
      rcases Nat.eq_or_lt_of_le hm1 with rfl | hlt
      · exact htest hmt
      · exact h4 m hlt hm2 hmt

lemma find_bin_from_isSome {ranges : List ℚ} {x : ℚ} {j fuel k : ℕ}
    (hk1 : j ≤ k) (hk2 : k < j + fuel)
    (ht : ranges.getD k 0 ≤ x ∧ x ≤ ranges.getD (k + 1) 0) :
    (find_bin_from ranges x j fuel).isSome := by
  induction fuel generalizing j with
  | zero => omega
  | succ fuel ih =>
    rw [find_bin_from]
    split
    · rfl
    · rename_i htest
      have hne : j ≠ k := by rintro rfl; exact htest ht
      exact ih (by omega) (by omega)

lemma find_bin_from_none {ranges : List ℚ} {x : ℚ} {j fuel : ℕ}
    (h : ∀ m, j ≤ m → m < j + fuel →
      ¬(ranges.getD m 0 ≤ x ∧ x ≤ ranges.getD (m + 1) 0)) :
    find_bin_from ranges x j fuel = none := by
  induction fuel generalizing j with
  | zero => rfl
  | succ fuel ih =>
    rw [find_bin_from]
    split
    · exact absurd ‹_› (h j (le_refl _) (by omega))
    · exact ih (fun m h1 h2 => h m (by omega) (by omega))

lemma find_bin_some {n : ℕ} {ranges : List ℚ} {x : ℚ} {k : ℕ}
    (h : find_bin n ranges x = some k) :
    k < n ∧ (ranges.getD k 0 ≤ x ∧ x ≤ ranges.getD (k + 1) 0) ∧
    (∀ m, m < k → ¬(ranges.getD m 0 ≤ x ∧ x ≤ ranges.getD (m + 1) 0)) := by
  obtain ⟨h1, h2, h3, h4⟩ := find_bin_from_some h
  exact ⟨by omega, h3, fun m hm => h4 m (by omega) hm⟩

/-- Witness index for a xi value in the closed interval: the scan of the
uniform partition of that interval always finds a containing cell. -/
lemma exists_bin_index (n : ℕ) (hn : 1 ≤ n) (x : ℚ) (h1 : -1 ≤ x) (h2 : x ≤ 1) :
    ∃ k, k < n ∧ (-1 + 2 * (k : ℚ) / (n : ℚ) ≤ x ∧
      x ≤ -1 + 2 * ((k : ℚ) + 1) / (n : ℚ)) := by
  have hn' : (0 : ℚ) < (n : ℚ) := by exact_mod_cast hn
  set q : ℚ := (x + 1) * (n : ℚ) / 2 with hq_def
  have hq0 : 0 ≤ q := by
    apply div_nonneg _ (by norm_num)
    apply mul_nonneg (by linarith) (le_of_lt hn')
  have hqn : q ≤ (n : ℚ) := by
    rw [hq_def, div_le_iff₀ (by norm_num : (0:ℚ) < 2)]
    nlinarith
  have hfloor0 : (0 : ℤ) ≤ ⌊q⌋ := Int.floor_nonneg.mpr hq0
  have hcast : ((⌊q⌋.toNat : ℚ)) = ((⌊q⌋ : ℤ) : ℚ) := by
    exact_mod_cast congrArg (fun z : ℤ => (z : ℚ)) (Int.toNat_of_nonneg hfloor0)
  refine ⟨min ⌊q⌋.toNat (n - 1), by omega, ?_, ?_⟩
  · have hkq : ((min ⌊q⌋.toNat (n - 1) : ℕ) : ℚ) ≤ q := by
      have h3 : ((min ⌊q⌋.toNat (n - 1) : ℕ) : ℚ) ≤ ((⌊q⌋.toNat : ℕ) : ℚ) := by
        exact_mod_cast Nat.cast_le.mpr (min_le_left _ _)
      have h4 : ((⌊q⌋.toNat : ℕ) : ℚ) ≤ q := by
        rw [hcast]; exact Int.floor_le q
      linarith
    have hmain : 2 * ((min ⌊q⌋.toNat (n - 1) : ℕ) : ℚ) / (n : ℚ) ≤ x + 1 := by
      rw [div_le_iff₀ hn']
      rw [hq_def] at hkq
      nlinarith
    linarith
  · have hk1 : q ≤ ((min ⌊q⌋.toNat (n - 1) : ℕ) : ℚ) + 1 := by
      by_cases hc : ⌊q⌋.toNat ≤ n - 1
      · rw [min_eq_left hc, hcast]
        have := Int.lt_floor_add_one q
        linarith
      · rw [min_eq_right (by omega)]
        have he : ((n - 1 : ℕ) : ℚ) + 1 = (n : ℚ) := by
          have h5 : (1 : ℕ) ≤ n := hn
          push_cast [Nat.cast_sub h5]
          ring
        rw [he]
        exact hqn
    have hmain : x + 1 ≤ 2 * (((min ⌊q⌋.toNat (n - 1) : ℕ) : ℚ) + 1) / (n : ℚ) := by
      rw [le_div_iff₀ hn']
      rw [hq_def] at hk1
      nlinarith
    linarith

lemma find_bin_isSome (n : ℕ) (hn : 1 ≤ n) (x : ℚ) (h1 : -1 ≤ x) (h2 : x ≤ 1) :
    (find_bin n (xi_bins_ranges n) x).isSome := by
  obtain ⟨k, hk, hlo, hhi⟩ := exists_bin_index n hn x h1 h2
  refine find_bin_from_isSome (Nat.zero_le k) (by omega) ⟨?_, ?_⟩
  · rw [xi_bins_ranges_getD n k (by omega)]
    exact hlo
  · rw [xi_bins_ranges_getD n (k + 1) (by omega)]
    push_cast
    exact hhi

lemma find_bin_none_of_out_of_range (n : ℕ) (x : ℚ) (h : x < -1 ∨ 1 < x) :
    find_bin n (xi_bins_ranges n) x = none := by
  apply find_bin_from_none
  intro m _ hm ht
  rcases h with h | h
  · exact absurd (le_trans (xi_bins_ranges_getD_ge n m (by omega)) ht.1)
      (by linarith)
  · exact absurd (le_trans ht.2 (xi_bins_ranges_getD_le n (m + 1) (by omega)))
      (by linarith)

/-! ### Properties of the binning loop (lines 59-74) -/

lemma sum_lengths_set {α : Type} (bins : List (List α)) (j : ℕ) (t : α)
    (hj : j < bins.length) :
    ((bins.set j (bins.getD j [] ++ [t])).map List.length).sum
      = (bins.map List.length).sum + 1 := by
  induction bins generalizing j with
  | nil => simp at hj
  | cons b bs ih =>
    cases j with
    | zero => simp [List.getD_cons_zero]; omega
    | succ j =>
      simp only [List.set_cons_succ, List.map_cons, List.sum_cons,
        List.getD_cons_succ]
      rw [ih j (by simpa using hj)]
      omega

lemma except_bind_ok {ε α β : Type} (a : α) (f : α → Except ε β) :
    ((Except.ok a : Except ε α) >>= f) = f a := rfl

lemma except_bind_error {ε α β : Type} (e : ε) (f : α → Except ε β) :
    ((Except.error e : Except ε α) >>= f) = Except.error e := rfl

lemma xi_binning_step_eq (n : ℕ) (ranges : List ℚ)
    (bins : List (List Trajectory)) (t : Trajectory) (f : Frame) (j : ℕ)
    (hf : t.head? = some f) (hj : find_bin n ranges f.xi = some j) :
    xi_binning_step n ranges bins t = .ok (bins.set j (bins.getD j [] ++ [t])) := by
  simp only [xi_binning_step, hf, hj]

lemma xi_binning_step_err (n : ℕ) (ranges : List ℚ)
    (bins : List (List Trajectory)) (t : Trajectory) (f : Frame)
    (hf : t.head? = some f) (hj : find_bin n ranges f.xi = none) :
    xi_binning_step n ranges bins t = .error (.xiNotPlacedInBin f.xi) := by
  simp only [xi_binning_step, hf, hj]

/-- If every trajectory's first frame finds a bin, the loop of lines 63-74
completes, keeps the number of bins, and adds each trajectory to exactly one
bin (so the bin sizes grow by exactly the number of trajectories). -/
lemma xi_binning_fold_ok (n : ℕ) (ranges : List ℚ) :
    ∀ (trajs : List Trajectory) (bins : List (List Trajectory)),
    bins.length = n →
    (∀ t ∈ trajs, ∃ f, t.head? = some f ∧ (find_bin n ranges f.xi).isSome) →
    ∃ bins', trajs.foldlM (xi_binning_step n ranges) bins = .ok bins' ∧
      bins'.length = n ∧
      (bins'.map List.length).sum = (bins.map List.length).sum + trajs.length := by
  intro trajs
  induction trajs with
  | nil => exact fun bins hlen _ => ⟨bins, rfl, hlen, by simp⟩
  | cons t ts ih =>
    intro bins hlen hgood
    obtain ⟨f, hf, hsome⟩ := hgood t (List.mem_cons_self t ts)
    obtain ⟨j, hj⟩ := Option.isSome_iff_exists.mp hsome
    have hjn : j < n := (find_bin_some hj).1
    obtain ⟨bins', hfold, hlen', hsum⟩ :=
      ih (bins.set j (bins.getD j [] ++ [t]))
        (by rw [List.length_set]; exact hlen)
        (fun t' ht' => hgood t' (List.mem_cons_of_mem t ht'))
    refine ⟨bins', ?_, hlen', ?_⟩
    · rw [List.foldlM_cons, xi_binning_step_eq n ranges bins t f j hf hj,
        except_bind_ok]
      exact hfold
    · rw [hsum, sum_lengths_set bins j t (by omega)]
      simp [List.length_cons]
      omega

/-- Conversely, if the loop completed then every trajectory had a first
frame whose xi value found a bin. -/
lemma xi_binning_fold_mem (n : ℕ) (ranges : List ℚ) :
    ∀ (trajs : List Trajectory) (bins bins' : List (List Trajectory)),
    trajs.foldlM (xi_binning_step n ranges) bins = .ok bins' →
    ∀ t ∈ trajs, ∃ f, t.head? = some f ∧ (find_bin n ranges f.xi).isSome := by
  intro trajs
  induction trajs with
  | nil => intro _ _ _ t ht; simp at ht
  | cons u us ih =>
    intro bins bins' hfold t ht
    rw [List.foldlM_cons] at hfold
    match hstep : xi_binning_step n ranges bins u with
    | .error e =>
      rw [hstep, except_bind_error] at hfold
      cases hfold
    | .ok bins₂ =>
      rw [hstep, except_bind_ok] at hfold
      rcases List.mem_cons.mp ht with rfl | hmem
      · match hu : t.head? with
        | none =>
          simp only [xi_binning_step, hu] at hstep
          exact absurd hstep (by simp)
        | some f =>
          match hfb : find_bin n ranges f.xi with
          | none =>
            simp only [xi_binning_step, hu, hfb] at hstep
            exact absurd hstep (by simp)
          | some j => exact ⟨f, rfl, by rw [hfb]; rfl⟩
      · exact ih bins₂ bins' hfold t hmem

/-- If every trajectory is non-empty and some trajectory's first-frame xi
value finds no bin, the loop of lines 63-74 raises the line-74 exception
(for the first such trajectory's xi value). -/
lemma xi_binning_fold_error (n : ℕ) (ranges : List ℚ) :
    ∀ (trajs : List Trajectory) (bins : List (List Trajectory)),
    (∀ t ∈ trajs, ∃ f, t.head? = some f) →
    (∃ t ∈ trajs, ∃ f, t.head? = some f ∧ find_bin n ranges f.xi = none) →
    ∃ x, trajs.foldlM (xi_binning_step n ranges) bins
      = .error (.xiNotPlacedInBin x) := by
  intro trajs
  induction trajs with
  | nil => intro _ _ hbad; simp at hbad
  | cons u us ih =>
    intro bins hne hbad
    obtain ⟨fu, hfu⟩ := hne u (List.mem_cons_self u us)
    rw [List.foldlM_cons]
    match hfb : find_bin n ranges fu.xi with
    | none =>
      refine ⟨fu.xi, ?_⟩
      rw [xi_binning_step_err n ranges bins u fu hfu hfb, except_bind_error]
    | some j =>
      rw [xi_binning_step_eq n ranges bins u fu j hfu hfb, except_bind_ok]
      have hbad' : ∃ t ∈ us, ∃ f, t.head? = some f ∧ find_bin n ranges f.xi = none := by
        obtain ⟨t, ht, f, hf, hnone⟩ := hbad
        rcases List.mem_cons.mp ht with rfl | hmem
        · rw [hfu] at hf
          cases hf
          rw [hfb] at hnone
          cases hnone
        · exact ⟨t, hmem, f, hf, hnone⟩
      obtain ⟨x, hx⟩ := ih (bins.set j (bins.getD j [] ++ [u]))
        (fun t ht => hne t (List.mem_cons_of_mem u ht)) hbad'
      exact ⟨x, hx⟩

/-! ### Properties of the log-file merging loop (lines 26-42) -/

lemma load_log_step_ok (s : LoadState) (md : RunMetadata) (l : LogData)
    (hmd : s.metadata = some md) (h1 : l.forceOutFreq = md.forceOutFreq)
    (h2 : l.forceRAMD = md.forceRAMD) (h3 : l.timeStep = md.timeStep) :
    load_log_step s l
      = .ok ⟨s.trajectory_list ++ l.trajectories, some md, some l.trajectories⟩ := by
  simp only [load_log_step, hmd]
  rw [if_neg (by simp [h1]), if_neg (by simp [h2]), if_neg (by simp [h3])]

lemma load_log_step_error (s : LoadState) (md : RunMetadata) (l : LogData)
    (hmd : s.metadata = some md)
    (hbad : l.forceOutFreq ≠ md.forceOutFreq ∨ l.forceRAMD ≠ md.forceRAMD ∨
      l.timeStep ≠ md.timeStep) :
    ∃ e, (e = AnalysisError.differingForceOutFreq ∨
          e = AnalysisError.differingForceRAMD ∨
          e = AnalysisError.differingTimeStep) ∧
      load_log_step s l = .error e := by
  simp only [load_log_step, hmd]
  by_cases c1 : md.forceOutFreq ≠ l.forceOutFreq
  · exact ⟨_, Or.inl rfl, by rw [if_pos c1]⟩
  · by_cases c2 : md.forceRAMD ≠ l.forceRAMD
    · exact ⟨_, Or.inr (Or.inl rfl), by rw [if_neg c1, if_pos c2]⟩
    · by_cases c3 : md.timeStep ≠ l.timeStep
      · exact ⟨_, Or.inr (Or.inr rfl), by rw [if_neg c1, if_neg c2, if_pos c3]⟩
      · push_neg at c1 c2 c3
        rcases hbad with h | h | h
        · exact absurd c1.symm h
        · exact absurd c2.symm h
        · exact absurd c3.symm h

/-- With the metadata already captured, the loop succeeds on every list of
consistent log files and the captured metadata never changes. -/
lemma load_fold_ok (md : RunMetadata) :
    ∀ (ls : List LogData) (s : LoadState), s.metadata = some md →
    (∀ l ∈ ls, l.forceOutFreq = md.forceOutFreq ∧ l.forceRAMD = md.forceRAMD ∧
      l.timeStep = md.timeStep) →
    ∃ s', ls.foldlM load_log_step s = .ok s' ∧ s'.metadata = some md := by
  intro ls
  induction ls with
  | nil => exact fun s hmd _ => ⟨s, rfl, hmd⟩
  | cons l ls ih =>
    intro s hmd hcons
    obtain ⟨h1, h2, h3⟩ := hcons l (List.mem_cons_self l ls)
    obtain ⟨s', hfold, hmd'⟩ :=
      ih ⟨s.trajectory_list ++ l.trajectories, some md, some l.trajectories⟩ rfl
        (fun l' hl' => hcons l' (List.mem_cons_of_mem l hl'))
    refine ⟨s', ?_, hmd'⟩
    rw [List.foldlM_cons, load_log_step_ok s md l hmd h1 h2 h3, except_bind_ok]
    exact hfold

/-- With the metadata already captured, the loop fails with one of the three
assertion errors as soon as any file's metadata diverges from it. -/
lemma load_fold_error (md : RunMetadata) :
    ∀ (ls : List LogData) (s : LoadState), s.metadata = some md →
    (∃ l ∈ ls, l.forceOutFreq ≠ md.forceOutFreq ∨ l.forceRAMD ≠ md.forceRAMD ∨
      l.timeStep ≠ md.timeStep) →
    ∃ e, (e = AnalysisError.differingForceOutFreq ∨
          e = AnalysisError.differingForceRAMD ∨
          e = AnalysisError.differingTimeStep) ∧
      ls.foldlM load_log_step s = .error e := by
  intro ls
  induction ls with
  | nil => intro _ _ hbad; simp at hbad
  | cons l ls ih =>
    intro s hmd hbad
    by_cases hok : l.forceOutFreq = md.forceOutFreq ∧ l.forceRAMD = md.forceRAMD ∧
      l.timeStep = md.timeStep
    · have hbad' : ∃ l' ∈ ls, l'.forceOutFreq ≠ md.forceOutFreq ∨
          l'.forceRAMD ≠ md.forceRAMD ∨ l'.timeStep ≠ md.timeStep := by
        obtain ⟨l', hl', hne⟩ := hbad
        rcases List.mem_cons.mp hl' with rfl | hmem
        · rcases hne with h | h | h
          · exact absurd hok.1 h
          · exact absurd hok.2.1 h
          · exact absurd hok.2.2 h
        · exact ⟨l', hmem, hne⟩
      obtain ⟨e, he, hfold⟩ :=
        ih ⟨s.trajectory_list ++ l.trajectories, some md, some l.trajectories⟩ rfl hbad'
      refine ⟨e, he, ?_⟩
      rw [List.foldlM_cons, load_log_step_ok s md l hmd hok.1 hok.2.1 hok.2.2,
        except_bind_ok]
      exact hfold
    · have hne : l.forceOutFreq ≠ md.forceOutFreq ∨ l.forceRAMD ≠ md.forceRAMD ∨
          l.timeStep ≠ md.timeStep := by tauto
      obtain ⟨e, he, hstep⟩ := load_log_step_error s md l hmd hne
      refine ⟨e, he, ?_⟩
      rw [List.foldlM_cons, hstep, except_bind_error]

/-- The first log file always loads, capturing its metadata. -/
lemma load_log_step_first (l : LogData) :
    load_log_step ⟨[], none, none⟩ l
      = .ok ⟨l.trajectories, some ⟨l.forceOutFreq, l.forceRAMD, l.timeStep⟩,
             some l.trajectories⟩ := by
  simp [load_log_step]

/-- When the merging loop fails, `analyze_log` fails with the same error:
nothing after line 42 runs. -/
lemma analyze_log_error_of_load {Mat Vec Profile Est : Type}
    (ext : Externals Mat Vec Profile Est) (files : List String)
    (num_milestones num_xi_bins : ℕ) (e : AnalysisError)
    (h : load_logs (files.map ext.parse_ramd_log_file) = .error e) :
    analyze_log ext files num_milestones num_xi_bins = .error e := by
  simp only [analyze_log, h]

/-! ### Inversion of a successful `analyze_log` run -/

/-- Every successful run's recorded fields satisfy the data flow of
lines 53-97: the milestone grid comes from the condensed trajectories, the
bins come from the binning loop on those same trajectories, the per-bin
models are built with `frame_time = timeStep * forceOutFreq`, and the
expansion is invoked with `beta = 0` on the stacked profiles. -/
lemma analyze_log_ok_inv {Mat Vec Profile Est : Type}
    (ext : Externals Mat Vec Profile Est) (files : List String)
    (num_milestones num_xi_bins : ℕ) (r : AnalysisResult Profile Est)
    (h : analyze_log ext files num_milestones num_xi_bins = .ok r) :
    r.beta = 0 ∧
    r.frame_time = r.metadata.timeStep * (r.metadata.forceOutFreq : ℚ) ∧
    (r.milestones, r.min_location, r.max_location, r.starting_cv_val)
      = ext.uniform_milestone_locations r.one_dim_trajs num_milestones ∧
    xi_binning num_xi_bins (xi_bins_ranges num_xi_bins) r.one_dim_trajs
      = .ok r.xi_bins ∧
    r.xi_bin_time_profiles = r.xi_bins.map (fun xi_bin_trajs =>
      (ext.make_time_profiles
        (ext.make_milestoning_model xi_bin_trajs r.milestones
          (r.metadata.timeStep * (r.metadata.forceOutFreq : ℚ))
          num_milestones).transition_matrix
        (ext.make_milestoning_model xi_bin_trajs r.milestones
          (r.metadata.timeStep * (r.metadata.forceOutFreq : ℚ))
          num_milestones).time_vector
        num_milestones)) ∧
    r.time_estimate = ext.functional_expansion_1d_ramd r.xi_bin_time_profiles
      r.metadata.forceRAMD 0 r.min_location r.max_location
      r.starting_cv_val := by
  simp only [analyze_log] at h
  split at h
  · exact absurd h (by simp)
  · split at h
    · split at h
      · exact absurd h (by simp)
      · rw [Except.ok.injEq] at h
        subst h
        exact ⟨rfl, rfl, rfl, by assumption, rfl, rfl⟩
    · exact absurd h (by simp)

/-! ### Concrete evaluation of the pipeline on two log files -/

/-- Running the orchestration on the two-file fixture with the trivial
externals produces exactly `resultTwoFiles`. -/
lemma analyze_twoFiles :
    analyze_log (testExternals twoFileParse) ["a", "b"] 10 5
      = .ok resultTwoFiles := by
  have ha : twoFileParse "a" = ⟨[[⟨0, 0⟩]], 50, 14, 2⟩ := by simp [twoFileParse]
  have hb : twoFileParse "b" = ⟨[[⟨1, 0⟩]], 50, 14, 2⟩ := by simp [twoFileParse]
  norm_num [analyze_log, load_logs, load_log_step, List.foldlM, xi_binning,
    xi_binning_step, find_bin, find_bin_from, xi_bins_ranges, testExternals,
    ha, hb, List.range_succ, bind, Except.bind, pure, Except.pure,
    resultTwoFiles, List.replicate_succ, List.set]

/-! ### The claims -/

/-- C1: the claim says the condensed fragment population handed to the
milestone grid builder and the xi binner equals the concatenation of all
supplied log files' fragments. The code refutes it: line 53 condenses the
loop variable `trajectories` (the last file's fragments) instead of the
accumulated `trajectory_list`, so on two files ("a" with fragment
[(0, 0)] and "b" with fragment [(1, 0)], condensing being the identity)
the population handed on is only the last file's single fragment, while
the concatenation of all fragments holds both. -/
theorem condense_receives_only_last_file_fragments :
    (analyze_log (testExternals twoFileParse) ["a", "b"] 10 5).map
      (fun r => (r.one_dim_trajs, r.trajectory_list))
      = .ok ([[⟨1, 0⟩]], [[⟨0, 0⟩], [⟨1, 0⟩]]) ∧
    ([[(⟨1, 0⟩ : Frame)]] : List Trajectory) ≠ [[⟨0, 0⟩], [⟨1, 0⟩]] := by
  constructor
  · rw [analyze_twoFiles]
    rfl
  · intro h
    have := congrArg List.length h
    simp at this

/-- C2: for every list of fragments whose first-frame xi values all lie in
the closed interval from -1 to 1, the binning loop succeeds, produces
`num_xi_bins` bins whose sizes sum to the number of fragments (each
fragment placed in exactly one bin), and the union of the bin intervals is
exactly that closed interval. -/
theorem xi_binner_total_partition (num_xi_bins : ℕ) (trajs : List Trajectory)
    (hn : 1 ≤ num_xi_bins)
    (hgood : ∀ t ∈ trajs, ∃ f, t.head? = some f ∧ -1 ≤ f.xi ∧ f.xi ≤ 1) :
    ∃ bins, xi_binning num_xi_bins (xi_bins_ranges num_xi_bins) trajs
      = .ok bins ∧
    bins.length = num_xi_bins ∧
    (bins.map List.length).sum = trajs.length ∧
    (∀ x : ℚ, (-1 ≤ x ∧ x ≤ 1) ↔ ∃ j, j < num_xi_bins ∧
      (xi_bins_ranges num_xi_bins).getD j 0 ≤ x ∧
      x ≤ (xi_bins_ranges num_xi_bins).getD (j + 1) 0) := by
  obtain ⟨bins, hfold, hlen, hsum⟩ :=
    xi_binning_fold_ok num_xi_bins (xi_bins_ranges num_xi_bins) trajs
      (List.replicate num_xi_bins []) (by simp)
      (fun t ht => by
        obtain ⟨f, hf, h1, h2⟩ := hgood t ht
        exact ⟨f, hf, find_bin_isSome num_xi_bins hn f.xi h1 h2⟩)
  refine ⟨bins, by rw [xi_binning]; exact hfold, hlen, ?_, ?_⟩
  · rw [hsum]
    simp [List.map_replicate]
  · intro x
    constructor
    · rintro ⟨h1, h2⟩
      obtain ⟨k, hk, hlo, hhi⟩ := exists_bin_index num_xi_bins hn x h1 h2
      refine ⟨k, hk, ?_, ?_⟩
      · rw [xi_bins_ranges_getD _ _ (by omega)]
        exact hlo
      · rw [xi_bins_ranges_getD _ _ (by omega)]
        push_cast
        exact hhi
    · rintro ⟨j, hj, hlo, hhi⟩
      exact ⟨le_trans (xi_bins_ranges_getD_ge _ j (by omega)) hlo,
             le_trans hhi (xi_bins_ranges_getD_le _ (j + 1) (by omega))⟩

/-- Witness for C2: two fragments with first-frame xi values -1 and 1 and
two bins. -/
theorem xi_binner_total_partition_witness :
    ∃ bins, xi_binning 2 (xi_bins_ranges 2) [[⟨0, -1⟩], [⟨0, 1⟩]]
      = .ok bins ∧
    bins.length = 2 ∧
    (bins.map List.length).sum = ([[(⟨0, -1⟩ : Frame)], [⟨0, 1⟩]] : List Trajectory).length ∧
    (∀ x : ℚ, (-1 ≤ x ∧ x ≤ 1) ↔ ∃ j, j < 2 ∧
      (xi_bins_ranges 2).getD j 0 ≤ x ∧ x ≤ (xi_bins_ranges 2).getD (j + 1) 0) :=
  xi_binner_total_partition 2 [[⟨0, -1⟩], [⟨0, 1⟩]] (by norm_num)
    (by
      intro t ht
      rcases List.mem_cons.mp ht with rfl | ht2
      · exact ⟨⟨0, -1⟩, rfl, by norm_num, by norm_num⟩
      · rcases List.mem_cons.mp ht2 with rfl | ht3
        · exact ⟨⟨0, 1⟩, rfl, by norm_num, by norm_num⟩
        · exact absurd ht3 (by simp))

/-- C3: when two or more log files are combined, any later file whose
forceOutFreq, forceRAMD or timeStep differs from the first file's values
makes the whole analysis fail with one of the three assertion errors before
any modeling takes place (the failure is the same for every choice of the
external modeling functions); if all values are identical, the merging loop
succeeds. -/
theorem metadata_consistency_check {Mat Vec Profile Est : Type}
    (ext : Externals Mat Vec Profile Est) (files : List String)
    (num_milestones num_xi_bins : ℕ) (first : LogData) (rest : List LogData)
    (hparse : files.map ext.parse_ramd_log_file = first :: rest) :
    ((∃ l ∈ rest, l.forceOutFreq ≠ first.forceOutFreq ∨
        l.forceRAMD ≠ first.forceRAMD ∨ l.timeStep ≠ first.timeStep) →
      ∃ e, (e = AnalysisError.differingForceOutFreq ∨
            e = AnalysisError.differingForceRAMD ∨
            e = AnalysisError.differingTimeStep) ∧
        analyze_log ext files num_milestones num_xi_bins = .error e) ∧
    ((∀ l ∈ rest, l.forceOutFreq = first.forceOutFreq ∧
        l.forceRAMD = first.forceRAMD ∧ l.timeStep = first.timeStep) →
      ∃ s, load_logs (first :: rest) = .ok s ∧
        s.metadata = some ⟨first.forceOutFreq, first.forceRAMD,
          first.timeStep⟩) := by
  have hinit : load_logs (first :: rest)
      = rest.foldlM load_log_step
          ⟨first.trajectories,
           some ⟨first.forceOutFreq, first.forceRAMD, first.timeStep⟩,
           some first.trajectories⟩ := by
    rw [load_logs, List.foldlM_cons, load_log_step_first, except_bind_ok]
  constructor
  · intro hbad
    obtain ⟨e, he, hfold⟩ := load_fold_error
      ⟨first.forceOutFreq, first.forceRAMD, first.timeStep⟩ rest
      ⟨first.trajectories,
       some ⟨first.forceOutFreq, first.forceRAMD, first.timeStep⟩,
       some first.trajectories⟩ rfl hbad
    refine ⟨e, he, analyze_log_error_of_load ext files _ _ e ?_⟩
    rw [hparse, hinit]
    exact hfold
  · intro hcons
    obtain ⟨s, hfold, hmd⟩ := load_fold_ok
      ⟨first.forceOutFreq, first.forceRAMD, first.timeStep⟩ rest
      ⟨first.trajectories,
       some ⟨first.forceOutFreq, first.forceRAMD, first.timeStep⟩,
       some first.trajectories⟩ rfl hcons
    exact ⟨s, by rw [hinit]; exact hfold, hmd⟩

/-- Witness for C3: two files whose forceRAMD values differ (14 versus 15)
make the analysis fail with one of the three assertion errors. -/
theorem metadata_consistency_check_witness :
    ∃ e, (e = AnalysisError.differingForceOutFreq ∨
          e = AnalysisError.differingForceRAMD ∨
          e = AnalysisError.differingTimeStep) ∧
      analyze_log (testExternals mismatchParse) ["a", "b"] 10 5 = .error e :=
  (metadata_consistency_check (testExternals mismatchParse) ["a", "b"] 10 5
      ⟨[[⟨0, 0⟩]], 50, 14, 2⟩ [⟨[[⟨1, 0⟩]], 50, 15, 2⟩]
      (by simp [testExternals, mismatchParse])).1
    ⟨⟨[[⟨1, 0⟩]], 50, 15, 2⟩, by simp, Or.inr (Or.inl (by norm_num))⟩

/-- C4: a fragment whose first-frame xi value lies strictly outside the
closed interval from -1 to 1 matches no bin interval (it is never placed in
a bin), and its presence makes the binning loop of lines 63-74 raise the
line-74 exception rather than drop the fragment. -/
theorem xi_binner_out_of_range_fatal (num_xi_bins : ℕ)
    (trajs : List Trajectory) (t : Trajectory) (f : Frame)
    (ht : t ∈ trajs) (hf : t.head? = some f) (hout : f.xi < -1 ∨ 1 < f.xi)
    (hne : ∀ t' ∈ trajs, ∃ f', t'.head? = some f') :
    find_bin num_xi_bins (xi_bins_ranges num_xi_bins) f.xi = none ∧
    ∃ x, xi_binning num_xi_bins (xi_bins_ranges num_xi_bins) trajs
      = .error (.xiNotPlacedInBin x) := by
  have hnone := find_bin_none_of_out_of_range num_xi_bins f.xi hout
  refine ⟨hnone, ?_⟩
  rw [xi_binning]
  exact xi_binning_fold_error num_xi_bins (xi_bins_ranges num_xi_bins) trajs
    (List.replicate num_xi_bins []) hne ⟨t, ht, f, hf, hnone⟩

/-- Witness for C4: a single fragment with first-frame xi value 2 finds no
bin among 5 bins and aborts the binning loop. -/
theorem xi_binner_out_of_range_fatal_witness :
    find_bin 5 (xi_bins_ranges 5) (Frame.mk 0 2).xi = none ∧
    ∃ x, xi_binning 5 (xi_bins_ranges 5) [[⟨0, 2⟩]]
      = .error (.xiNotPlacedInBin x) :=
  xi_binner_out_of_range_fatal 5 [[⟨0, 2⟩]] [⟨0, 2⟩] ⟨0, 2⟩ (by simp) rfl
    (Or.inr (by norm_num))
    (by
      intro t' ht'
      rcases List.mem_cons.mp ht' with rfl | ht2
      · exact ⟨⟨0, 2⟩, rfl⟩
      · exact absurd ht2 (by simp))


/-- C5: the binner's intervals are the `num_xi_bins` equal-width cells of
the uniform partition of the closed interval from -1 to 1; the scan tests
the intervals in increasing order with membership inclusive at both
endpoints and stops at the first match, so a xi value equal to an interior
boundary (the upper endpoint of cell k-1 and the lower endpoint of cell k)
is assigned to the lower-indexed cell k-1. -/
theorem xi_binner_first_match_scan (num_xi_bins k : ℕ)
    (hk1 : 1 ≤ k) (hk2 : k < num_xi_bins) :
    (∀ j, j < num_xi_bins →
      (xi_bins_ranges num_xi_bins).getD (j + 1) 0
        - (xi_bins_ranges num_xi_bins).getD j 0 = 2 / (num_xi_bins : ℚ)) ∧
    (∀ x : ℚ, ∀ j, find_bin num_xi_bins (xi_bins_ranges num_xi_bins) x = some j →
      j < num_xi_bins ∧
      ((xi_bins_ranges num_xi_bins).getD j 0 ≤ x ∧
        x ≤ (xi_bins_ranges num_xi_bins).getD (j + 1) 0) ∧
      (∀ m, m < j → ¬((xi_bins_ranges num_xi_bins).getD m 0 ≤ x ∧
        x ≤ (xi_bins_ranges num_xi_bins).getD (m + 1) 0))) ∧
    find_bin num_xi_bins (xi_bins_ranges num_xi_bins)
      ((xi_bins_ranges num_xi_bins).getD k 0) = some (k - 1) := by
  have hn1 : 1 ≤ num_xi_bins := by omega
  have hn0 : (0 : ℚ) < (num_xi_bins : ℚ) := by exact_mod_cast hn1
  refine ⟨?_, ?_, ?_⟩
  · intro j hj
    rw [xi_bins_ranges_getD _ _ (by omega), xi_bins_ranges_getD _ _ (by omega)]
    push_cast
    field_simp
    ring
  · intro x j hj
    exact find_bin_some hj
  · set v : ℚ := (xi_bins_ranges num_xi_bins).getD k 0 with hv
    have hvval : v = -1 + 2 * (k : ℚ) / (num_xi_bins : ℚ) :=
      xi_bins_ranges_getD _ _ (by omega)
    have hv1 : -1 ≤ v := xi_bins_ranges_getD_ge _ _ (by omega)
    have hv2 : v ≤ 1 := xi_bins_ranges_getD_le _ _ (by omega)
    obtain ⟨j, hj⟩ := Option.isSome_iff_exists.mp
      (find_bin_isSome num_xi_bins hn1 v hv1 hv2)
    obtain ⟨hjn, ⟨hlo, hhi⟩, hmin⟩ := find_bin_some hj
    have hkk : k - 1 + 1 = k := by omega
    have htest : (xi_bins_ranges num_xi_bins).getD (k - 1) 0 ≤ v ∧
        v ≤ (xi_bins_ranges num_xi_bins).getD (k - 1 + 1) 0 := by
      constructor
      · rw [xi_bins_ranges_getD _ _ (by omega), hvval]
        have hc : ((k - 1 : ℕ) : ℚ) = (k : ℚ) - 1 := by
          push_cast [Nat.cast_sub hk1]
          ring
        rw [hc]
        have h2n : (0 : ℚ) < 2 / (num_xi_bins : ℚ) := by positivity
        have hre : 2 * ((k : ℚ) - 1) / (num_xi_bins : ℚ)
            = 2 * (k : ℚ) / (num_xi_bins : ℚ) - 2 / (num_xi_bins : ℚ) := by
          ring
        linarith
      · rw [hkk]
    have hle : j ≤ k - 1 := by
      by_contra hgt
      push_neg at hgt
      exact hmin (k - 1) hgt htest
    have hge : ¬(j < k - 1) := by
      intro hlt
      have hj1k : j + 1 < k + 1 := by omega
      have hup : (xi_bins_ranges num_xi_bins).getD (j + 1) 0 < v := by
        rw [xi_bins_ranges_getD _ _ (by omega), hvval]
        push_cast
        have hcast : ((j : ℚ) + 1) + 1 ≤ (k : ℚ) := by
          exact_mod_cast Nat.succ_le_of_lt (by omega : j + 1 < k)
        have h2n : (0 : ℚ) < 2 / (num_xi_bins : ℚ) := by positivity
        have hre : 2 * ((j : ℚ) + 1) / (num_xi_bins : ℚ)
            ≤ 2 * ((k : ℚ) - 1) / (num_xi_bins : ℚ) := by
          have hnum : 2 * ((j : ℚ) + 1) ≤ 2 * ((k : ℚ) - 1) := by linarith
          calc 2 * ((j : ℚ) + 1) / (num_xi_bins : ℚ)
              = 2 * ((j : ℚ) + 1) * (num_xi_bins : ℚ)⁻¹ := by ring
            _ ≤ 2 * ((k : ℚ) - 1) * (num_xi_bins : ℚ)⁻¹ := by
                apply mul_le_mul_of_nonneg_right hnum
                positivity
            _ = 2 * ((k : ℚ) - 1) / (num_xi_bins : ℚ) := by ring
        have hfin : 2 * ((k : ℚ) - 1) / (num_xi_bins : ℚ)
            = 2 * (k : ℚ) / (num_xi_bins : ℚ) - 2 / (num_xi_bins : ℚ) := by
          ring
        linarith
      exact absurd hhi (not_le.mpr hup)
    have : j = k - 1 := by omega
    rw [this] at hj
    exact hj


/-- Witness for C5: with 4 bins, the interior boundary value at index 2
(which is 0) is assigned to bin 1, the lower-indexed of the two adjoining
bins. -/
theorem xi_binner_first_match_scan_witness :
    (∀ j, j < 4 → (xi_bins_ranges 4).getD (j + 1) 0
      - (xi_bins_ranges 4).getD j 0 = 2 / (4 : ℚ)) ∧
    (∀ x : ℚ, ∀ j, find_bin 4 (xi_bins_ranges 4) x = some j →
      j < 4 ∧
      ((xi_bins_ranges 4).getD j 0 ≤ x ∧ x ≤ (xi_bins_ranges 4).getD (j + 1) 0) ∧
      (∀ m, m < j → ¬((xi_bins_ranges 4).getD m 0 ≤ x ∧
        x ≤ (xi_bins_ranges 4).getD (m + 1) 0))) ∧
    find_bin 4 (xi_bins_ranges 4) ((xi_bins_ranges 4).getD 2 0) = some (2 - 1) :=
  xi_binner_first_match_scan 4 2 (by norm_num) (by norm_num)

/-- C6: every successful analysis run invokes the sigma-RAMD expander with
the placeholder `beta = 0.0` of line 91, whatever the inputs: the recorded
beta is 0 and the time estimate is the expansion evaluated at beta 0. -/
theorem sigma_ramd_beta_placeholder_zero {Mat Vec Profile Est : Type}
    (ext : Externals Mat Vec Profile Est) (files : List String)
    (num_milestones num_xi_bins : ℕ) (r : AnalysisResult Profile Est)
    (h : analyze_log ext files num_milestones num_xi_bins = .ok r) :
    r.beta = 0 ∧
    r.time_estimate = ext.functional_expansion_1d_ramd r.xi_bin_time_profiles
      r.metadata.forceRAMD 0 r.min_location r.max_location
      r.starting_cv_val := by
  obtain ⟨h1, _, _, _, _, h6⟩ :=
    analyze_log_ok_inv ext files num_milestones num_xi_bins r h
  exact ⟨h1, h6⟩

/-- Witness for C6: the concrete two-file run records beta 0 and an
estimate computed at beta 0. -/
theorem sigma_ramd_beta_placeholder_zero_witness :
    resultTwoFiles.beta = 0 ∧
    resultTwoFiles.time_estimate
      = (testExternals twoFileParse).functional_expansion_1d_ramd
          resultTwoFiles.xi_bin_time_profiles resultTwoFiles.metadata.forceRAMD
          0 resultTwoFiles.min_location resultTwoFiles.max_location
          resultTwoFiles.starting_cv_val :=
  sigma_ramd_beta_placeholder_zero (testExternals twoFileParse) ["a", "b"]
    10 5 resultTwoFiles analyze_twoFiles

/-- C7: in every successful analysis run the per-frame time spacing handed
to each bin's milestoning model builder is
`frame_time = timeStep * forceOutFreq`, computed from the run metadata: the
recorded frame time equals that product and every per-bin profile is built
by a `make_milestoning_model` call receiving it. -/
theorem frame_time_from_metadata {Mat Vec Profile Est : Type}
    (ext : Externals Mat Vec Profile Est) (files : List String)
    (num_milestones num_xi_bins : ℕ) (r : AnalysisResult Profile Est)
    (h : analyze_log ext files num_milestones num_xi_bins = .ok r) :
    r.frame_time = r.metadata.timeStep * (r.metadata.forceOutFreq : ℚ) ∧
    r.xi_bin_time_profiles = r.xi_bins.map (fun xi_bin_trajs =>
      ext.make_time_profiles
        (ext.make_milestoning_model xi_bin_trajs r.milestones
          (r.metadata.timeStep * (r.metadata.forceOutFreq : ℚ))
          num_milestones).transition_matrix
        (ext.make_milestoning_model xi_bin_trajs r.milestones
          (r.metadata.timeStep * (r.metadata.forceOutFreq : ℚ))
          num_milestones).time_vector
        num_milestones) := by
  obtain ⟨_, h2, _, _, h5, _⟩ :=
    analyze_log_ok_inv ext files num_milestones num_xi_bins r h
  exact ⟨h2, h5⟩

/-- Witness for C7: the concrete two-file run records
`frame_time = 2 * 50 = 100` and builds every bin's model with it. -/
theorem frame_time_from_metadata_witness :
    resultTwoFiles.frame_time
      = resultTwoFiles.metadata.timeStep
        * (resultTwoFiles.metadata.forceOutFreq : ℚ) ∧
    resultTwoFiles.xi_bin_time_profiles
      = resultTwoFiles.xi_bins.map (fun xi_bin_trajs =>
        (testExternals twoFileParse).make_time_profiles
          ((testExternals twoFileParse).make_milestoning_model xi_bin_trajs
            resultTwoFiles.milestones
            (resultTwoFiles.metadata.timeStep
              * (resultTwoFiles.metadata.forceOutFreq : ℚ))
            10).transition_matrix
          ((testExternals twoFileParse).make_milestoning_model xi_bin_trajs
            resultTwoFiles.milestones
            (resultTwoFiles.metadata.timeStep
              * (resultTwoFiles.metadata.forceOutFreq : ℚ))
            10).time_vector
          10) :=
  frame_time_from_metadata (testExternals twoFileParse) ["a", "b"] 10 5
    resultTwoFiles analyze_twoFiles

/-- C8: the pipeline is a pure function of its inputs and of the external
modules' return values: two runs on equal externals, equal file lists and
equal parameters produce equal outputs. -/
theorem pipeline_deterministic {Mat Vec Profile Est : Type}
    (ext ext2 : Externals Mat Vec Profile Est) (files files2 : List String)
    (num_milestones num_milestones2 num_xi_bins num_xi_bins2 : ℕ)
    (h1 : ext = ext2) (h2 : files = files2)
    (h3 : num_milestones = num_milestones2) (h4 : num_xi_bins = num_xi_bins2) :
    analyze_log ext files num_milestones num_xi_bins
      = analyze_log ext2 files2 num_milestones2 num_xi_bins2 := by
  subst h1
  subst h2
  subst h3
  subst h4
  rfl

/-- Witness for C8: two identical concrete runs agree. -/
theorem pipeline_deterministic_witness :
    analyze_log (testExternals twoFileParse) ["a", "b"] 10 5
      = analyze_log (testExternals twoFileParse) ["a", "b"] 10 5 :=
  pipeline_deterministic (testExternals twoFileParse)
    (testExternals twoFileParse) ["a", "b"] ["a", "b"] 10 10 5 5
    rfl rfl rfl rfl

/-- C9: the command surface takes one or more log file paths (an empty list
is a usage error) and two optional integer options; when omitted the
analysis runs with 10 milestones and 5 xi bins (both the argparse defaults
of lines 105 and 109 and the keyword defaults of line 20), and when given
the options are passed through. -/
theorem cli_defaults_ten_and_five {Mat Vec Profile Est : Type}
    (ext : Externals Mat Vec Profile Est) (files : List String)
    (hne : files ≠ []) :
    run_main ext ⟨files, none, none⟩ = analyze_log ext files 10 5 ∧
    (∀ nm na, run_main ext ⟨files, some nm, some na⟩
      = analyze_log ext files nm na) ∧
    run_main ext ⟨[], none, none⟩ = .error .usageError ∧
    analyze_log ext files = analyze_log ext files 10 5 := by
  have hne2 : ¬(files.isEmpty = true) := by
    simpa using hne
  refine ⟨?_, ?_, rfl, rfl⟩
  · rw [run_main, if_neg hne2]
    rfl
  · intro nm na
    rw [run_main, if_neg hne2]
    rfl

/-- Witness for C9 at a concrete non-empty file list. -/
theorem cli_defaults_ten_and_five_witness :
    run_main (testExternals twoFileParse) ⟨["a", "b"], none, none⟩
      = analyze_log (testExternals twoFileParse) ["a", "b"] 10 5 ∧
    (∀ nm na, run_main (testExternals twoFileParse) ⟨["a", "b"], some nm, some na⟩
      = analyze_log (testExternals twoFileParse) ["a", "b"] nm na) ∧
    run_main (testExternals twoFileParse) ⟨[], none, none⟩
      = .error .usageError ∧
    analyze_log (testExternals twoFileParse) ["a", "b"]
      = analyze_log (testExternals twoFileParse) ["a", "b"] 10 5 :=
  cli_defaults_ten_and_five (testExternals twoFileParse) ["a", "b"] (by simp)

/-- C10: nothing validates `num_xi_bins` at least 1: with 0 bins the range
list is the single element -1, so no bin interval exists; the first
fragment (when one exists and is non-empty) fails the bin search and the
loop aborts with the line-74 bin-placement exception (carrying that
fragment's xi value, not a configuration error), while with zero fragments
the binning loop completes without error. -/
theorem zero_bins_unvalidated (t : Trajectory) (ts : List Trajectory)
    (f : Frame) (hf : t.head? = some f) :
    xi_binning 0 (xi_bins_ranges 0) (t :: ts)
      = .error (.xiNotPlacedInBin f.xi) ∧
    xi_binning 0 (xi_bins_ranges 0) ([] : List Trajectory) = .ok [] := by
  constructor
  · rw [xi_binning, List.foldlM_cons,
      xi_binning_step_err 0 (xi_bins_ranges 0) (List.replicate 0 []) t f hf rfl,
      except_bind_error]
  · rfl

/-- Witness for C10: one single-frame fragment with 0 bins. -/
theorem zero_bins_unvalidated_witness :
    xi_binning 0 (xi_bins_ranges 0) [[(⟨0, 0⟩ : Frame)]]
      = .error (.xiNotPlacedInBin (Frame.mk 0 0).xi) ∧
    xi_binning 0 (xi_bins_ranges 0) ([] : List Trajectory) = .ok [] :=
  zero_bins_unvalidated [⟨0, 0⟩] [] ⟨0, 0⟩ rfl

end OpenmmRamd
